import Mathlib

/-!
Shallow embedding of the Autoforensics detection engine
(`backend/forensics/position_falsification.py` and
`backend/forensics/sybil_attack.py`), with theorems settling the frozen
claims about its specification.

Modelling conventions:
* Python floats are embedded as elements of a `LinearOrderedField`
  (instantiated at `ℚ` for executable checks and at `ℝ` where the real
  haversine distance is needed).
* Fallible Python code (file reading, the `TypeError` raised when a text
  line is indexed by a string key) is embedded as `Except String`.
* Library routines whose internals are irrelevant to the claims
  (`float()` parsing of a string, `json.load`, `csv.DictReader`,
  `readlines`) are taken as parameters; every theorem quantifies over
  them, so the results hold for any behaviour of those routines.
* `sorted(rows, key=...)` is the stable sort by the key; it is embedded
  as insertion sort, which is extensionally the unique stable sort, and
  stability is proved explicitly.
-/

namespace Autoforensics

/-- A scalar value of a parsed input row: a string (CSV fields), a number
(JSON numbers) or null (JSON null). -/
inductive Value where
  | vstr (s : String)
  | vnum (q : ℚ)
  | vnull
deriving DecidableEq

/-- Python truthiness of a `Value`, as tested by `if key in row and row[key]:`
in `_normalize_data`: empty strings, zero and null are falsy. -/
def Value.truthy : Value → Bool
  | .vstr s => s ≠ ""
  | .vnum q => q ≠ 0
  | .vnull => false

/-- The conversion `float(v)` applied to a row value, embedded as an
`Option`: `none` models the exception swallowed by the `except: pass` of
`_normalize_data`. The string case is the parameter `pf`, which models
the `float()` parser on decimal strings. -/
def Value.toFloat? (pf : String → Option ℚ) : Value → Option ℚ
  | .vstr s => pf s
  | .vnum q => some q
  | .vnull => none

/-- A raw row as returned by `_read_file`: a dict (JSON objects, CSV
`DictReader` rows) or a bare string (lines of a txt/log file, for which
`key in row` is a substring test and `row[key]` raises `TypeError`). -/
inductive RawRow where
  | dict (fields : List (String × Value))
  | str (line : String)

/-- A normalized record as produced by `_normalize_data`: `psn`,
`localtime`, `x`, `y` are always resolved (rows missing any of them are
dropped), `spd` is optional. `x`/`y` are kept as `Option` because the
analysis loop re-checks them for `None`. -/
structure Row (α : Type) where
  psn : Value
  t : α
  x : Option α
  y : Option α
  spd : Option α
deriving DecidableEq

/-- The synonym priority list for the vehicle id, from `_normalize_data`. -/
def psnKeys : List String := ["PSN", "psn", "vehicle_id", "id", "VehicleID"]

/-- The synonym priority list for the timestamp. -/
def timeKeys : List String := ["localtime", "LocalTime", "timestamp", "time", "Time"]

/-- The synonym priority list for the x coordinate (longitude). -/
def xKeys : List String := ["x", "X", "lon", "longitude", "Longitude", "lng"]

/-- The synonym priority list for the y coordinate (latitude). -/
def yKeys : List String := ["y", "Y", "lat", "latitude", "Latitude"]

/-- The synonym priority list for the reported speed. -/
def spdKeys : List String := ["spd", "Spd", "speed", "Speed", "velocity"]

/-- All synonym keys tried by `_normalize_data`, in loop order. -/
def allKeys : List String := psnKeys ++ timeKeys ++ xKeys ++ yKeys ++ spdKeys

/-- One candidate key of a numeric field on a dict row: the value is used
only if the key is present, the value truthy and `float()` succeeds;
otherwise the loop falls through to the next key. -/
def candVal (pf : String → Option ℚ) (fields : List (String × Value))
    (k : String) : Option ℚ :=
  match fields.lookup k with
  | some v => if v.truthy then v.toFloat? pf else none
  | none => none

/-- The numeric-field resolution loop of `_normalize_data`: try the
synonym keys in order, first key whose value is present, truthy and
parseable wins. -/
def resolveNum (pf : String → Option ℚ) (fields : List (String × Value)) :
    List String → Option ℚ
  | [] => none
  | k :: ks =>
    match candVal pf fields k with
    | some q => some q
    | none => resolveNum pf fields ks

/-- The psn resolution loop of `_normalize_data`: first present truthy
value wins, stored without conversion. -/
def resolveRaw (fields : List (String × Value)) : List String → Option Value
  | [] => none
  | k :: ks =>
    match fields.lookup k with
    | some v => if v.truthy then some v else resolveRaw fields ks
    | none => resolveRaw fields ks

/-- Substring test, embedding the Python expression `key in row` when
`row` is a string. Intended for nonempty `pat`. -/
def strContains (s pat : String) : Bool := (s.splitOn pat).length != 1

/-- Normalization of a single raw row. A dict row always succeeds
(`Except.ok`), yielding `some` record when all four required fields
resolve and `none` (row dropped) otherwise. A string row raises
`TypeError` as soon as any synonym key occurs in it as a substring
(`row[key]` with a string index), and is dropped otherwise. -/
def normalizeRow (pf : String → Option ℚ) : RawRow → Except String (Option (Row ℚ))
  | .str line =>
    if allKeys.any (strContains line) then
      .error "string indices must be integers"
    else
      .ok none
  | .dict fields =>
    match resolveRaw fields psnKeys, resolveNum pf fields timeKeys,
        resolveNum pf fields xKeys, resolveNum pf fields yKeys with
    | some p, some tv, some xv, some yv =>
      .ok (some ⟨p, tv, some xv, some yv, resolveNum pf fields spdKeys⟩)
    | _, _, _, _ => .ok none

/-- `_normalize_data`: normalize all rows in order, keeping the records
of the rows that resolve; the first `TypeError` aborts the whole pass
(it propagates to the top-level handler of `analyze`). -/
def normalizeData (pf : String → Option ℚ) : List RawRow → Except String (List (Row ℚ))
  | [] => .ok []
  | r :: rest =>
    match normalizeRow pf r with
    | .error e => .error e
    | .ok o =>
      match normalizeData pf rest with
      | .error e => .error e
      | .ok l => .ok (match o with | some row => row :: l | none => l)

/-- The last dot-separated segment of a character list: the model of
`filepath.split(".")[-1]` (the whole string when no dot occurs, the
empty suffix after a trailing dot). -/
def lastSeg : List Char → List Char → List Char
  | [], acc => acc
  | c :: rest, acc =>
    if c = '.' then lastSeg rest [] else lastSeg rest (acc ++ [c])

/-- The extension extraction of `_read_file`:
`filepath.split(".")[-1].lower()`. -/
def extOf (filepath : String) : String :=
  String.mk ((lastSeg filepath.toList []).map Char.toLower)

/-- The extensions accepted by `_read_file`. -/
def allowedExts : List String := ["json", "csv", "txt", "log"]

/-- `_read_file` (same dispatch in both detectors): dispatch on the
lowercased extension; `json` parses via `jsonLoad` (which may fail like
`json.load`), `csv` yields dict rows via `csvRead`, `txt`/`log` yield the
lines as string rows via `linesOf`, anything else raises
`ValueError("Unsupported file format: ...")`. A missing file raises
`FileNotFoundError`, modelled by the `fs` lookup returning `none`. -/
def readFile (jsonLoad : String → Except String (List RawRow))
    (csvRead : String → List (List (String × Value)))
    (linesOf : String → List String)
    (fs : String → Option String) (filepath : String) :
    Except String (List RawRow) :=
  let ext := extOf filepath
  if ext = "json" then
    match fs filepath with
    | none => .error "No such file or directory"
    | some s => jsonLoad s
  else if ext = "csv" then
    match fs filepath with
    | none => .error "No such file or directory"
    | some s => .ok ((csvRead s).map .dict)
  else if ext = "txt" ∨ ext = "log" then
    match fs filepath with
    | none => .error "No such file or directory"
    | some s => .ok ((linesOf s).map .str)
  else
    .error ("Unsupported file format: " ++ ext)

/-- The kinds of anomaly emitted by the position analysis loop, each with
the evidence the source stores (the display rounding `round(v, 2)` /
`round(v, 3)` of the stored copies is omitted; counts and classification
are unaffected). -/
inductive Anomaly (α : Type) where
  | nonIncreasingTimestamp (psn : Value) (t1 t2 : α)
  | inconsistentSpeed (psn : Value) (computed reported quotient t : α) (loc : α × α)
  | teleportation (psn : Value) (speed d dt t : α) (loc : α × α)
  | impossibleSpeed (psn : Value) (speed d dt t : α) (loc : α × α)
  | repeatedPosition (psn : Value) (t : α) (loc : α × α)
deriving DecidableEq

/-- The mutable counters and anomaly list threaded through the analysis
loop of `PositionFalsificationDetector.analyze`. -/
structure St (α : Type) where
  totalPoints : ℕ
  teleportations : ℕ
  impossibleMoves : ℕ
  inconsistentSpeeds : ℕ
  timestampAnomalies : ℕ
  repeatedPositions : ℕ
  anomalies : List (Anomaly α)
deriving DecidableEq

/-- The initial loop state: all counters zero, no anomalies. -/
def St.init (α : Type) : St α :=
  ⟨0, 0, 0, 0, 0, 0, []⟩

section Analyzer

variable {α : Type} [LinearOrderedField α]

/-- `MIN_TIME_DELTA = 0.1` seconds. -/
def minTimeDelta : α := 1 / 10

/-- The time-delta clamp: `if dt < MIN_TIME_DELTA: dt = MIN_TIME_DELTA`. -/
def clampDt (dt : α) : α :=
  if dt < minTimeDelta then minTimeDelta else dt

/-- The computed speed of a consecutive pair: distance divided by the
clamped time delta. -/
def pairSpeed (d dt : α) : α := d / clampDt dt

/-- First part of the pair check of `analyze`: the timestamp anomaly,
emitted when `dt = t2 - t1 <= 0`. -/
def tsStep (psn : Value) (prev r : Row α) (s : St α) : St α :=
  if r.t - prev.t ≤ 0 then
    { s with timestampAnomalies := s.timestampAnomalies + 1,
             anomalies := s.anomalies ++ [.nonIncreasingTimestamp psn prev.t r.t] }
  else s

/-- The speed-inconsistency check of `analyze`: when both the reported
and the computed speed exceed 0.1 m/s and their quotient exceeds 2. -/
def inconsistencyStep (psn : Value) (speed t2 y2 x2 : α) (spd : Option α)
    (s : St α) : St α :=
  match spd with
  | some rep =>
    if rep > 1 / 10 ∧ speed > 1 / 10 then
      let quotient := max rep speed / min rep speed
      if quotient > 2 then
        { s with inconsistentSpeeds := s.inconsistentSpeeds + 1,
                 anomalies := s.anomalies ++
                   [.inconsistentSpeed psn speed rep quotient t2 (y2, x2)] }
      else s
    else s
  | none => s

/-- The extreme-speed classification of `analyze`: computed speed above
100 m/s is a teleportation, else above 50 m/s an impossible speed. -/
def classifyStep (psn : Value) (speed d dtc t2 y2 x2 : α) (s : St α) : St α :=
  if speed > 100 then
    { s with teleportations := s.teleportations + 1,
             anomalies := s.anomalies ++
               [.teleportation psn speed d dtc t2 (y2, x2)] }
  else if speed > 50 then
    { s with impossibleMoves := s.impossibleMoves + 1,
             anomalies := s.anomalies ++
               [.impossibleSpeed psn speed d dtc t2 (y2, x2)] }
  else s

/-- The repeated-position check of `analyze`: a movement below 0.1 m
increments the counter and, on every 10th occurrence, logs an anomaly. -/
def repeatedStep (psn : Value) (d t2 y2 x2 : α) (s : St α) : St α :=
  if d < 1 / 10 then
    let rp := s.repeatedPositions + 1
    let s := { s with repeatedPositions := rp }
    if rp % 10 = 0 then
      { s with anomalies := s.anomalies ++ [.repeatedPosition psn t2 (y2, x2)] }
    else s
  else s

/-- The coordinate-based part of the pair check of `analyze`: skipped
when any coordinate is missing, otherwise distance, computed speed and
the three checks in source order. -/
def pairCore (D : α → α → α → α → α) (psn : Value) (prev r : Row α)
    (s : St α) : St α :=
  match prev.x, prev.y, r.x, r.y with
  | some x1, some y1, some x2, some y2 =>
    let dt := r.t - prev.t
    let d := D y1 x1 y2 x2
    let speed := pairSpeed d dt
    repeatedStep psn d r.t y2 x2
      (classifyStep psn speed d (clampDt dt) r.t y2 x2
        (inconsistencyStep psn speed r.t y2 x2 r.spd s))
  | _, _, _, _ => s

/-- The body of the inner loop of `analyze` for one consecutive pair
`(prev, r)` of one trajectory, with `D` the distance helper `dist`
(called as `dist((y1, x1), (y2, x2))`, latitude first): timestamp check
first, then the coordinate-based checks. -/
def stepPair (D : α → α → α → α → α) (psn : Value) (prev r : Row α)
    (s : St α) : St α :=
  pairCore D psn prev r (tsStep psn prev r s)

/-- The inner loop of `analyze` after the first record: each record
increments `total_points`, is compared against the previous one, and
becomes the new `prev`. -/
def walk (D : α → α → α → α → α) (psn : Value) :
    Row α → List (Row α) → St α → St α
  | _, [], s => s
  | prev, r :: rest, s =>
    walk D psn r rest
      (stepPair D psn prev r { s with totalPoints := s.totalPoints + 1 })

/-- The inner loop of `analyze` over one sorted trajectory, starting with
`prev = None` (the first record only increments `total_points`). -/
def processTraj (D : α → α → α → α → α) (psn : Value) :
    List (Row α) → St α → St α
  | [], s => s
  | r :: rest, s =>
    walk D psn r rest { s with totalPoints := s.totalPoints + 1 }

/-- `sorted(rows, key=lambda r: float(r.get("localtime", 0)))`: the
stable sort of a trajectory by timestamp, embedded as insertion sort. -/
def sortRows (rows : List (Row α)) : List (Row α) :=
  rows.insertionSort (fun a b => a.t ≤ b.t)

/-- The per-vehicle step of `analyze`: sort by timestamp, skip groups of
fewer than two records, otherwise run the pairwise loop. -/
def processVehicle (D : α → α → α → α → α) (psn : Value)
    (rows : List (Row α)) (s : St α) : St α :=
  let rowsSorted := sortRows rows
  if rowsSorted.length < 2 then s else processTraj D psn rowsSorted s

/-- One step of the grouping loop `vehicles.setdefault(psn, []).append(row)`;
insertion order of keys is preserved as in a Python dict. -/
def addToGroups : List (Value × List (Row α)) → Row α → List (Value × List (Row α))
  | [], r => [(r.psn, [r])]
  | (k, rs) :: rest, r =>
    if k = r.psn then (k, rs ++ [r]) :: rest else (k, rs) :: addToGroups rest r

/-- The grouping of normalized records by `psn` (every normalized record
carries a psn, so the `if psn is None: continue` guard of the source is
vacuous here). -/
def groupByPsn (rows : List (Row α)) : List (Value × List (Row α)) :=
  rows.foldl addToGroups []

/-- The threat scoring of `analyze` (source lines 196-221), returning the
pair `(threat_level, confidence_score)`: the `total_points == 0` branch,
the rates over `max(1, total_points)`, confidence
`min(1.0, anomaly_rate * 10)` and the five-way level chain (whose last
two branches are both Low). -/
def scoreThreat (tele imp inc ts totalPts : ℕ) : String × α :=
  let totalAnoms := tele + imp + inc + ts
  if totalPts = 0 then ("Unknown", 0)
  else
    let anomalyRate : α := (totalAnoms : α) / (totalPts : α)
    let teleRate : α := (tele : α) / ((max 1 totalPts : ℕ) : α)
    let impRate : α := (imp : α) / ((max 1 totalPts : ℕ) : α)
    let conf := min 1 (anomalyRate * 10)
    let lvl :=
      if tele > 5 ∨ teleRate > 1 / 100 then "Critical"
      else if tele > 0 ∨ imp > 10 ∨ impRate > 2 / 100 then "High"
      else if imp > 0 ∨ inc > 20 then "Medium"
      else if inc > 0 ∨ ts > 0 then "Low"
      else "Low"
    (lvl, conf)

/-- The findings assembled by `analyze` into `self.results` plus the
report-level `threat_level` and `confidence_score` (fields not bearing on
any claim — hotspots, affected vehicles, indicator strings, the constant
detection metrics — are omitted). -/
structure Findings (α : Type) where
  totalPositionsAnalyzed : ℕ
  totalVehicles : ℕ
  anomalousPositions : ℕ
  teleportations : ℕ
  impossibleMovements : ℕ
  speedViolations : ℕ
  inconsistentSpeeds : ℕ
  timestampAnomalies : ℕ
  repeatedPositions : ℕ
  gpsSpoofingIndicators : ℕ
  anomalies : List (Anomaly α)
  threatLevel : String
  confidenceScore : α
deriving DecidableEq

/-- The record-level analysis of
`PositionFalsificationDetector.analyze`: group by psn, analyze each
trajectory, score the totals and assemble the findings. -/
def analyzeRows (D : α → α → α → α → α) (rows : List (Row α)) : Findings α :=
  let groups := groupByPsn rows
  let s := groups.foldl (fun s g => processVehicle D g.1 g.2 s) (St.init α)
  let sc := scoreThreat (α := α) s.teleportations s.impossibleMoves
    s.inconsistentSpeeds s.timestampAnomalies s.totalPoints
  { totalPositionsAnalyzed := s.totalPoints
    totalVehicles := groups.length
    anomalousPositions := s.teleportations + s.impossibleMoves +
      s.inconsistentSpeeds + s.timestampAnomalies
    teleportations := s.teleportations
    impossibleMovements := s.impossibleMoves
    speedViolations := s.impossibleMoves + s.teleportations
    inconsistentSpeeds := s.inconsistentSpeeds
    timestampAnomalies := s.timestampAnomalies
    repeatedPositions := s.repeatedPositions
    gpsSpoofingIndicators := s.teleportations
    anomalies := s.anomalies
    threatLevel := sc.1
    confidenceScore := sc.2 }

end Analyzer

/-- The report of the position detector: either the structured error
response `{error: true, message, timestamp}` produced by the top-level
exception handler, or the findings report. -/
inductive Report (α : Type) where
  | err (message timestamp : String)
  | ok (findings : Findings α)
deriving DecidableEq

/-- `PositionFalsificationDetector.analyze` from the file boundary: read
the file, normalize, analyze; any raised error (unsupported format,
missing file, parse failure, the normalizer `TypeError`) is caught and
converted to the structured error response stamped with the current time
`now`. -/
def analyze (D : ℚ → ℚ → ℚ → ℚ → ℚ) (pf : String → Option ℚ)
    (jsonLoad : String → Except String (List RawRow))
    (csvRead : String → List (List (String × Value)))
    (linesOf : String → List String)
    (fs : String → Option String) (now filepath : String) : Report ℚ :=
  match readFile jsonLoad csvRead linesOf fs filepath with
  | .error m => .err m now
  | .ok data =>
    match normalizeData pf data with
    | .error m => .err m now
    | .ok rows => .ok (analyzeRows D rows)

/-- The report of the Sybil detector (`sybil_attack.py` as present in the
source tree: the mock-output version): either the structured error
response or the completed report, of which only `threat_level` and
`confidence_score` matter to the claims. -/
inductive SReport where
  | err (message timestamp : String)
  | ok (threatLevel : String) (confidenceScore : ℚ)
deriving DecidableEq

/-- `SybilAttackDetector.analyze` of the source tree: read the file (same
dispatch as the position detector), install the mock results, and compile
the report; a fresh detector has `threat_level = "Unknown"` and
`confidence_score = 0.0`, so `_compile_report` always applies its
defaults Medium / 0.85. Any raised error is caught and wrapped as
`"Analysis failed: ..."`. -/
def sybilAnalyze (jsonLoad : String → Except String (List RawRow))
    (csvRead : String → List (List (String × Value)))
    (linesOf : String → List String)
    (fs : String → Option String) (now filepath : String) : SReport :=
  match readFile jsonLoad csvRead linesOf fs filepath with
  | .error m => .err ("Analysis failed: " ++ m) now
  | .ok _ => .ok "Medium" (85 / 100)

/-- `math.radians`, over the reals. -/
noncomputable def radiansR (x : ℝ) : ℝ := x * Real.pi / 180

/-- `math.atan2(y, x)`, over the reals: the quadrant-aware arctangent.
Only the `x > 0` branch is exercised by the evaluations below. -/
noncomputable def atan2R (y x : ℝ) : ℝ :=
  if 0 < x then Real.arctan (y / x)
  else if x < 0 then
    (if 0 ≤ y then Real.arctan (y / x) + Real.pi else Real.arctan (y / x) - Real.pi)
  else
    (if 0 < y then Real.pi / 2 else if y < 0 then -(Real.pi / 2) else 0)

/-- The helper `dist(coord1, coord2)` of `analyze`: the haversine
great-circle distance in meters with Earth radius 6,371,000 m (the
`except` clause of the source is dead for numeric inputs, so the result
is total here). Arguments are latitude and longitude of each point, in
the order the source passes them. -/
noncomputable def havDist (lat1 lon1 lat2 lon2 : ℝ) : ℝ :=
  let rEarth : ℝ := 6371000
  let phi1 := radiansR lat1
  let phi2 := radiansR lat2
  let dphi := radiansR (lat2 - lat1)
  let dlam := radiansR (lon2 - lon1)
  let a := Real.sin (dphi / 2) ^ 2 +
    Real.cos phi1 * Real.cos phi2 * Real.sin (dlam / 2) ^ 2
  let c := 2 * atan2R (Real.sqrt a) (Real.sqrt (1 - a))
  rEarth * c

/-- The threat-level decision exactly as the claim states it: first-match
wins on the listed conditions, with the rates taken over `total_points`
itself, and Unknown when there are no points. -/
def specThreatLevel (α : Type) [LinearOrderedField α]
    (tele imp inc ts totalPts : ℕ) : String :=
  if totalPts = 0 then "Unknown"
  else if tele > 5 ∨ (tele : α) / (totalPts : α) > 1 / 100 then "Critical"
  else if tele > 0 ∨ imp > 10 ∨ (imp : α) / (totalPts : α) > 2 / 100 then "High"
  else if imp > 0 ∨ inc > 20 then "Medium"
  else "Low"

/-- The confidence score exactly as the claim states it:
`min(1.0, (total_anomalies / total_points) * 10)` with
`total_anomalies = teleportations + impossible_speeds +
inconsistent_speeds + timestamp_anomalies`, and `0.0` when there are no
points. -/
def specConfidence (α : Type) [LinearOrderedField α]
    (tele imp inc ts totalPts : ℕ) : α :=
  if totalPts = 0 then 0
  else min 1 (((tele + imp + inc + ts : ℕ) : α) / (totalPts : α) * 10)

/-- Modelled from the spec: the aggregate scoring of the real-logic Sybil
analyzer (spec section 4.4 / 4.4-aggregate), which is not under `src/` —
the source tree carries only the mock-output `SybilAttackDetector`.
`total = |cloned| + |position_conflicts| + |behavior_clones|`; thresholds
`>= 10 -> Critical (0.95)`, `>= 5 -> High (0.88)`, `>= 2 -> Medium
(0.75)`, else `Low (0.60)`. -/
def sybilScore (cloned conflicts clones : ℕ) : String × ℚ :=
  let total := cloned + conflicts + clones
  if total ≥ 10 then ("Critical", 95 / 100)
  else if total ≥ 5 then ("High", 88 / 100)
  else if total ≥ 2 then ("Medium", 75 / 100)
  else ("Low", 60 / 100)

/-- C1: for `total_points > 0` the threat level is determined first-match
wins in the claimed order (Critical on `teleportations > 5` or teleport
rate `> 0.01`; High on `teleportations > 0` or `impossible_speeds > 10`
or impossible rate `> 0.02`; Medium on `impossible_speeds > 0` or
`inconsistent_speeds > 20`; otherwise Low), and the confidence score is
`min(1.0, (total_anomalies / total_points) * 10)`; for
`total_points == 0` the result is Unknown with confidence `0.0`. The
source scoring (with its rates over `max(1, total_points)` and its two
syntactically distinct Low branches) equals the claimed decision. -/
theorem position_scoring_matches_claim (α : Type) [LinearOrderedField α]
    (tele imp inc ts totalPts : ℕ) :
    scoreThreat (α := α) tele imp inc ts totalPts =
      (specThreatLevel α tele imp inc ts totalPts,
        specConfidence α tele imp inc ts totalPts) := by
  unfold scoreThreat specThreatLevel specConfidence
  by_cases h : totalPts = 0
  · simp [h]
  · have hmax : max 1 totalPts = totalPts :=
      Nat.max_eq_right (Nat.one_le_iff_ne_zero.mpr h)
    simp only [if_neg h, hmax]
    split_ifs <;> rfl

/-- C2: the computed speed used by the speed checks is the distance
divided by the floor-clamped time delta, i.e. `d / max(t, 0.1)` exactly,
for every positive time delta `t`. -/
theorem computed_speed_clamped (α : Type) [LinearOrderedField α]
    (d t : α) (h : 0 < t) :
    pairSpeed d t = d / max t (1 / 10) := by
  unfold pairSpeed clampDt minTimeDelta
  rcases lt_or_le t (1 / 10) with h1 | h1
  · rw [if_pos h1, max_eq_right h1.le]
  · rw [if_neg (not_lt.mpr h1), max_eq_left h1]

/-- Witness for C2 at `d = 5`, `t = 2`. -/
theorem computed_speed_clamped_witness :
    (0 : ℚ) < 2 ∧ pairSpeed (5 : ℚ) 2 = 5 / max 2 (1 / 10) :=
  ⟨by norm_num, computed_speed_clamped ℚ 5 2 (by norm_num)⟩

/-- C4: the Sybil aggregate scoring (modelled from the spec, the
real-logic Sybil analyzer being absent from the source tree) is the
claimed fixed lookup table on
`total = |cloned| + |position_conflicts| + |behavior_clones|`:
`total >= 10` gives Critical with 0.95, `total >= 5` gives High with
0.88, `total >= 2` gives Medium with 0.75, otherwise Low with 0.60; in
particular the confidence always comes from the fixed four-value table,
not from any anomaly density. -/
theorem sybil_scoring_lookup_table (cloned conflicts clones : ℕ) :
    (10 ≤ cloned + conflicts + clones →
      sybilScore cloned conflicts clones = ("Critical", 95 / 100)) ∧
    (5 ≤ cloned + conflicts + clones ∧ cloned + conflicts + clones < 10 →
      sybilScore cloned conflicts clones = ("High", 88 / 100)) ∧
    (2 ≤ cloned + conflicts + clones ∧ cloned + conflicts + clones < 5 →
      sybilScore cloned conflicts clones = ("Medium", 75 / 100)) ∧
    (cloned + conflicts + clones < 2 →
      sybilScore cloned conflicts clones = ("Low", 60 / 100)) ∧
    (sybilScore cloned conflicts clones).2 ∈
      ({95 / 100, 88 / 100, 75 / 100, 60 / 100} : Set ℚ) := by
  refine ⟨fun h => ?_, fun h => ?_, fun h => ?_, fun h => ?_, ?_⟩ <;>
      simp only [sybilScore] <;> split_ifs <;>
    first
      | rfl
      | (exfalso; omega)
      | simp

/-- Witness for C4 at the concrete totals 12, 6, 3 and 1. -/
theorem sybil_scoring_lookup_table_witness :
    sybilScore 4 4 4 = ("Critical", 95 / 100) ∧
    sybilScore 2 2 2 = ("High", 88 / 100) ∧
    sybilScore 1 1 1 = ("Medium", 75 / 100) ∧
    sybilScore 1 0 0 = ("Low", 60 / 100) :=
  ⟨(sybil_scoring_lookup_table 4 4 4).1 (by norm_num),
    (sybil_scoring_lookup_table 2 2 2).2.1 (by norm_num),
    (sybil_scoring_lookup_table 1 1 1).2.2.1 (by norm_num),
    (sybil_scoring_lookup_table 1 0 0).2.2.2.1 (by norm_num)⟩

section TimestampClaims

variable {α : Type} [LinearOrderedField α]

/-- The number of consecutive pairs of a record list whose timestamps are
non-increasing (`t2 <= t1`). -/
def descPairs : List (Row α) → ℕ
  | a :: b :: rest => (if b.t ≤ a.t then 1 else 0) + descPairs (b :: rest)
  | _ => 0

/-- Recognizer for the `non_increasing_timestamp` anomaly kind. -/
def isNonIncTs : Anomaly α → Bool
  | .nonIncreasingTimestamp _ _ _ => true
  | _ => false

theorem inconsistencyStep_ts (psn : Value) (speed t2 y2 x2 : α)
    (spd : Option α) (s : St α) :
    (inconsistencyStep psn speed t2 y2 x2 spd s).timestampAnomalies =
      s.timestampAnomalies := by
  rcases spd with _ | rep <;> simp only [inconsistencyStep] <;> split_ifs <;> rfl

theorem classifyStep_ts (psn : Value) (speed d dtc t2 y2 x2 : α) (s : St α) :
    (classifyStep psn speed d dtc t2 y2 x2 s).timestampAnomalies =
      s.timestampAnomalies := by
  simp only [classifyStep]; split_ifs <;> rfl

theorem repeatedStep_ts (psn : Value) (d t2 y2 x2 : α) (s : St α) :
    (repeatedStep psn d t2 y2 x2 s).timestampAnomalies =
      s.timestampAnomalies := by
  simp only [repeatedStep]; split_ifs <;> rfl

theorem pairCore_ts (D : α → α → α → α → α) (psn : Value) (prev r : Row α)
    (s : St α) :
    (pairCore D psn prev r s).timestampAnomalies = s.timestampAnomalies := by
  simp only [pairCore]
  rcases prev.x with _ | x1 <;> rcases prev.y with _ | y1 <;>
    rcases r.x with _ | x2 <;> rcases r.y with _ | y2 <;>
    first
      | rfl
      | rw [repeatedStep_ts, classifyStep_ts, inconsistencyStep_ts]

theorem inconsistencyStep_nonIncCount (psn : Value) (speed t2 y2 x2 : α)
    (spd : Option α) (s : St α) :
    (inconsistencyStep psn speed t2 y2 x2 spd s).anomalies.countP (isNonIncTs ·) =
      s.anomalies.countP (isNonIncTs ·) := by
  rcases spd with _ | rep <;> simp only [inconsistencyStep] <;> split_ifs <;>
    simp [List.countP_append, isNonIncTs]

theorem classifyStep_nonIncCount (psn : Value) (speed d dtc t2 y2 x2 : α)
    (s : St α) :
    (classifyStep psn speed d dtc t2 y2 x2 s).anomalies.countP (isNonIncTs ·) =
      s.anomalies.countP (isNonIncTs ·) := by
  simp only [classifyStep]; split_ifs <;>
    simp [List.countP_append, isNonIncTs]

theorem repeatedStep_nonIncCount (psn : Value) (d t2 y2 x2 : α) (s : St α) :
    (repeatedStep psn d t2 y2 x2 s).anomalies.countP (isNonIncTs ·) =
      s.anomalies.countP (isNonIncTs ·) := by
  simp only [repeatedStep]; split_ifs <;>
    simp [List.countP_append, isNonIncTs]

theorem pairCore_nonIncCount (D : α → α → α → α → α) (psn : Value)
    (prev r : Row α) (s : St α) :
    (pairCore D psn prev r s).anomalies.countP (isNonIncTs ·) =
      s.anomalies.countP (isNonIncTs ·) := by
  simp only [pairCore]
  rcases prev.x with _ | x1 <;> rcases prev.y with _ | y1 <;>
    rcases r.x with _ | x2 <;> rcases r.y with _ | y2 <;>
    first
      | rfl
      | rw [repeatedStep_nonIncCount, classifyStep_nonIncCount,
          inconsistencyStep_nonIncCount]

theorem stepPair_timestampAnomalies (D : α → α → α → α → α) (psn : Value)
    (prev r : Row α) (s : St α) :
    (stepPair D psn prev r s).timestampAnomalies =
      s.timestampAnomalies + (if r.t ≤ prev.t then 1 else 0) := by
  rw [stepPair, pairCore_ts]
  simp only [tsStep, sub_nonpos]
  split_ifs <;> rfl

theorem stepPair_nonIncCount (D : α → α → α → α → α) (psn : Value)
    (prev r : Row α) (s : St α) :
    (stepPair D psn prev r s).anomalies.countP (isNonIncTs ·) =
      s.anomalies.countP (isNonIncTs ·) + (if r.t ≤ prev.t then 1 else 0) := by
  rw [stepPair, pairCore_nonIncCount]
  simp only [tsStep, sub_nonpos]
  split_ifs <;> simp [List.countP_append, isNonIncTs]

theorem walk_timestampAnomalies (D : α → α → α → α → α) (psn : Value) :
    ∀ (l : List (Row α)) (prev : Row α) (s : St α),
      (walk D psn prev l s).timestampAnomalies =
        s.timestampAnomalies + descPairs (prev :: l)
  | [], prev, s => by simp [walk, descPairs]
  | r :: rest, prev, s => by
    rw [walk, walk_timestampAnomalies D psn rest r _, stepPair_timestampAnomalies]
    simp only [descPairs]
    ring

theorem walk_nonIncCount (D : α → α → α → α → α) (psn : Value) :
    ∀ (l : List (Row α)) (prev : Row α) (s : St α),
      (walk D psn prev l s).anomalies.countP (isNonIncTs ·) =
        s.anomalies.countP (isNonIncTs ·) + descPairs (prev :: l)
  | [], prev, s => by simp [walk, descPairs]
  | r :: rest, prev, s => by
    rw [walk, walk_nonIncCount D psn rest r _, stepPair_nonIncCount]
    simp only [descPairs]
    ring

/-- C5: on every trajectory actually analyzed (a group of at least two
records, sorted by timestamp), each consecutive pair whose timestamps
are non-increasing (`t2 <= t1`) contributes exactly one to the
`timestamp_anomalies` counter and appends exactly one
`non_increasing_timestamp` anomaly, regardless of every other field of
the two records (coordinates and reported speeds are universally
quantified, and the counts depend only on the timestamps). -/
theorem nonincreasing_timestamp_anomaly_count (α : Type) [LinearOrderedField α]
    (D : α → α → α → α → α) (psn : Value) (rows : List (Row α)) (s : St α)
    (h : 2 ≤ rows.length) :
    (processVehicle D psn rows s).timestampAnomalies =
      s.timestampAnomalies + descPairs (sortRows rows) ∧
    (processVehicle D psn rows s).anomalies.countP (isNonIncTs ·) =
      s.anomalies.countP (isNonIncTs ·) + descPairs (sortRows rows) := by
  have hlen : (sortRows rows).length = rows.length :=
    List.length_insertionSort _ rows
  simp only [processVehicle]
  rw [if_neg (by omega)]
  rcases hs : sortRows rows with _ | ⟨r, rest⟩
  · rw [hs] at hlen
    simp at hlen
    omega
  · constructor
    · rw [processTraj, walk_timestampAnomalies]
    · rw [processTraj, walk_nonIncCount]

/-- Two sample records with equal timestamps and different coordinates,
for the C5 witness. -/
def tieRows : List (Row ℚ) :=
  [⟨.vstr "V", 5, some 0, some 0, none⟩, ⟨.vstr "V", 5, some 1, some 1, none⟩]

/-- Witness for C5: two records of one vehicle with equal timestamps and
different coordinates yield exactly one timestamp anomaly. -/
theorem nonincreasing_timestamp_anomaly_count_witness :
    (processVehicle (fun _ _ _ _ => (0 : ℚ)) (.vstr "V") tieRows
        (St.init ℚ)).timestampAnomalies =
      (St.init ℚ).timestampAnomalies + descPairs (sortRows tieRows) ∧
    (processVehicle (fun _ _ _ _ => (0 : ℚ)) (.vstr "V") tieRows
        (St.init ℚ)).anomalies.countP (isNonIncTs ·) =
      (St.init ℚ).anomalies.countP (isNonIncTs ·) +
        descPairs (sortRows tieRows) :=
  nonincreasing_timestamp_anomaly_count ℚ (fun _ _ _ _ => 0) (.vstr "V") _ _
    (by decide)

end TimestampClaims

theorem readFile_unsupported (jsonLoad : String → Except String (List RawRow))
    (csvRead : String → List (List (String × Value)))
    (linesOf : String → List String) (fs : String → Option String)
    (fp : String) (h : extOf fp ∉ allowedExts) :
    readFile jsonLoad csvRead linesOf fs fp =
      .error ("Unsupported file format: " ++ extOf fp) := by
  simp only [allowedExts, List.mem_cons, List.not_mem_nil, or_false,
    not_or] at h
  obtain ⟨h1, h2, h3, h4⟩ := h
  simp only [readFile]
  rw [if_neg h1, if_neg h2, if_neg (by simp [h3, h4])]

theorem scoreThreat_conf_unit {α : Type} [LinearOrderedField α]
    (tele imp inc ts totalPts : ℕ) :
    0 ≤ (scoreThreat (α := α) tele imp inc ts totalPts).2 ∧
      (scoreThreat (α := α) tele imp inc ts totalPts).2 ≤ 1 := by
  simp only [scoreThreat]
  by_cases h : totalPts = 0
  · simp [h]
  · rw [if_neg h]
    refine ⟨le_min zero_le_one (by positivity), min_le_left _ _⟩

/-- C3: the analysis entry points never let an exception cross their
boundary. For any filepath and any behaviour of the filesystem and of the
library parsers, (a) an extension outside csv/json/txt/log yields the
structured error response (message `Unsupported file format: ...`,
stamped with the current time) from both detectors, and (b) every result
of either detector is either the structured error response or a findings
report — the embedded pipelines are total, every raised error being
converted by the top-level handler. -/
theorem analyze_never_escapes (D : ℚ → ℚ → ℚ → ℚ → ℚ)
    (pf : String → Option ℚ) (jsonLoad : String → Except String (List RawRow))
    (csvRead : String → List (List (String × Value)))
    (linesOf : String → List String) (fs : String → Option String)
    (now fp : String) :
    (extOf fp ∉ allowedExts →
      analyze D pf jsonLoad csvRead linesOf fs now fp =
        .err ("Unsupported file format: " ++ extOf fp) now ∧
      sybilAnalyze jsonLoad csvRead linesOf fs now fp =
        .err ("Analysis failed: " ++ ("Unsupported file format: " ++ extOf fp)) now) ∧
    ((∃ m, analyze D pf jsonLoad csvRead linesOf fs now fp = .err m now) ∨
      (∃ f, analyze D pf jsonLoad csvRead linesOf fs now fp = .ok f)) ∧
    ((∃ m, sybilAnalyze jsonLoad csvRead linesOf fs now fp = .err m now) ∨
      (∃ t c, sybilAnalyze jsonLoad csvRead linesOf fs now fp = .ok t c)) := by
  refine ⟨fun h => ?_, ?_, ?_⟩
  · rw [analyze, sybilAnalyze, readFile_unsupported _ _ _ _ _ h]
    exact ⟨rfl, rfl⟩
  · rcases hr : readFile jsonLoad csvRead linesOf fs fp with m | data
    · exact .inl ⟨m, by rw [analyze, hr]⟩
    · rcases hn : normalizeData pf data with m | rows
      · exact .inl ⟨m, by simp only [analyze, hr, hn]⟩
      · exact .inr ⟨analyzeRows D rows, by simp only [analyze, hr, hn]⟩
  · rcases hr : readFile jsonLoad csvRead linesOf fs fp with m | data
    · exact .inl ⟨_, by rw [sybilAnalyze, hr]⟩
    · exact .inr ⟨_, _, by rw [sybilAnalyze, hr]⟩

/-- A trivial distance function, for witnesses. -/
def d0 : ℚ → ℚ → ℚ → ℚ → ℚ := fun _ _ _ _ => 0

/-- A float parser that always fails, for witnesses. -/
def pf0 : String → Option ℚ := fun _ => none

/-- A json parser returning no rows, for witnesses. -/
def jl0 : String → Except String (List RawRow) := fun _ => .ok []

/-- A csv reader returning no rows, for witnesses. -/
def cr0 : String → List (List (String × Value)) := fun _ => []

/-- A line splitter returning one line, for witnesses. -/
def lo0 : String → List String := fun _ => ["hello"]

/-- A filesystem where every path holds an empty file, for witnesses. -/
def fs0 : String → Option String := fun _ => some ""

/-- Witness for C3: a `.xml` path yields the structured error response
from both detectors. -/
theorem analyze_never_escapes_witness :
    analyze d0 pf0 jl0 cr0 lo0 fs0 "T" "evidence.xml" =
      .err ("Unsupported file format: " ++ extOf "evidence.xml") "T" ∧
    sybilAnalyze jl0 cr0 lo0 fs0 "T" "evidence.xml" =
      .err ("Analysis failed: " ++
        ("Unsupported file format: " ++ extOf "evidence.xml")) "T" :=
  (analyze_never_escapes d0 pf0 jl0 cr0 lo0 fs0 "T" "evidence.xml").1
    (by decide)

/-- C9: whenever either detector returns a non-error report, its
confidence score lies in the closed interval `[0, 1]`: for the position
detector it is `0` or `min(1, rate * 10)` with a nonnegative rate, for
the Sybil detector of the source tree it is the constant `0.85`. -/
theorem confidence_score_unit_interval :
    (∀ (D : ℚ → ℚ → ℚ → ℚ → ℚ) (pf : String → Option ℚ)
        (jsonLoad : String → Except String (List RawRow))
        (csvRead : String → List (List (String × Value)))
        (linesOf : String → List String) (fs : String → Option String)
        (now fp : String) (f : Findings ℚ),
        analyze D pf jsonLoad csvRead linesOf fs now fp = .ok f →
        0 ≤ f.confidenceScore ∧ f.confidenceScore ≤ 1) ∧
    (∀ (jsonLoad : String → Except String (List RawRow))
        (csvRead : String → List (List (String × Value)))
        (linesOf : String → List String) (fs : String → Option String)
        (now fp : String) (t : String) (c : ℚ),
        sybilAnalyze jsonLoad csvRead linesOf fs now fp = .ok t c →
        0 ≤ c ∧ c ≤ 1) := by
  constructor
  · intro D pf jsonLoad csvRead linesOf fs now fp f heq
    rcases hr : readFile jsonLoad csvRead linesOf fs fp with m | data
    · rw [analyze, hr] at heq
      exact absurd heq (by simp)
    · rcases hn : normalizeData pf data with m | rows
      · rw [analyze, hr] at heq
        simp only [hn] at heq
        exact absurd heq (by simp)
      · rw [analyze, hr] at heq
        simp only [hn, Report.ok.injEq] at heq
        subst heq
        exact scoreThreat_conf_unit _ _ _ _ _
  · intro jsonLoad csvRead linesOf fs now fp t c heq
    rcases hr : readFile jsonLoad csvRead linesOf fs fp with m | data
    · rw [sybilAnalyze, hr] at heq
      exact absurd heq (by simp)
    · rw [sybilAnalyze, hr] at heq
      simp only [SReport.ok.injEq] at heq
      rw [← heq.2]
      norm_num

/-- Witness for C9: on an empty csv file the position report has
confidence `0` and the Sybil report has confidence `0.85`. -/
theorem confidence_score_unit_interval_witness :
    (0 ≤ (analyzeRows d0 ([] : List (Row ℚ))).confidenceScore ∧
      (analyzeRows d0 ([] : List (Row ℚ))).confidenceScore ≤ 1) ∧
    (0 ≤ (85 / 100 : ℚ) ∧ (85 / 100 : ℚ) ≤ 1) :=
  ⟨confidence_score_unit_interval.1 d0 pf0 jl0 cr0 lo0 fs0 "T" "a.csv" _ rfl,
    confidence_score_unit_interval.2 jl0 cr0 lo0 fs0 "T" "a.csv" "Medium" _ rfl⟩

theorem candVal_eq_some_iff (pf : String → Option ℚ)
    (fields : List (String × Value)) (k : String) (q : ℚ) :
    candVal pf fields k = some q ↔
      ∃ v, fields.lookup k = some v ∧ v.truthy = true ∧ v.toFloat? pf = some q := by
  simp only [candVal]
  rcases fields.lookup k with _ | v
  · simp
  · by_cases hv : v.truthy = true
    · simp [hv]
    · simp [if_neg, hv]

theorem resolveNum_eq_some_iff (pf : String → Option ℚ)
    (fields : List (String × Value)) :
    ∀ (keys : List String) (q : ℚ),
      resolveNum pf fields keys = some q ↔
        ∃ pre k post, keys = pre ++ k :: post ∧
          candVal pf fields k = some q ∧
          ∀ k2 ∈ pre, candVal pf fields k2 = none
  | [], q => by
    constructor
    · intro h
      exact absurd h (by simp [resolveNum])
    · rintro ⟨pre, k, post, heq, -, -⟩
      exact absurd heq (by simp)
  | k0 :: ks, q => by
    rcases hc : candVal pf fields k0 with _ | v
    · simp only [resolveNum, hc]
      constructor
      · intro h
        obtain ⟨pre, k, post, heq, hk, hall⟩ :=
          (resolveNum_eq_some_iff pf fields ks q).mp h
        exact ⟨k0 :: pre, k, post, by rw [heq]; rfl, hk, by
          intro k2 hk2
          rcases List.mem_cons.mp hk2 with h2 | h2
          · rw [h2]; exact hc
          · exact hall k2 h2⟩
      · rintro ⟨pre, k, post, heq, hk, hall⟩
        rcases pre with _ | ⟨p, pre2⟩
        · simp only [List.nil_append, List.cons.injEq] at heq
          rw [← heq.1] at hk
          rw [hc] at hk
          exact absurd hk (by simp)
        · simp only [List.cons_append, List.cons.injEq] at heq
          exact (resolveNum_eq_some_iff pf fields ks q).mpr
            ⟨pre2, k, post, heq.2, hk, fun k2 h2 => hall k2 (List.mem_cons_of_mem _ h2)⟩
    · simp only [resolveNum, hc]
      constructor
      · intro h
        refine ⟨[], k0, ks, rfl, ?_, by simp⟩
        rw [hc]
        exact h
      · rintro ⟨pre, k, post, heq, hk, hall⟩
        rcases pre with _ | ⟨p, pre2⟩
        · simp only [List.nil_append, List.cons.injEq] at heq
          rw [← heq.1] at hk
          rw [hc] at hk
          exact hk
        · simp only [List.cons_append, List.cons.injEq] at heq
          have hp := hall p (by simp)
          rw [← heq.1] at hp
          rw [hp] at hc
          exact absurd hc (by simp)

theorem resolveNum_eq_none_iff (pf : String → Option ℚ)
    (fields : List (String × Value)) :
    ∀ keys : List String,
      resolveNum pf fields keys = none ↔
        ∀ k ∈ keys, candVal pf fields k = none
  | [] => by simp [resolveNum]
  | k0 :: ks => by
    rcases hc : candVal pf fields k0 with _ | v
    · rw [resolveNum, hc]
      rw [resolveNum_eq_none_iff pf fields ks]
      constructor
      · intro h k hk
        rcases List.mem_cons.mp hk with h2 | h2
        · rw [h2]; exact hc
        · exact h k h2
      · intro h k hk
        exact h k (List.mem_cons_of_mem _ hk)
    · rw [resolveNum, hc]
      constructor
      · intro h
        exact absurd h (by simp)
      · intro h
        have := h k0 (by simp)
        rw [this] at hc
        exact absurd hc (by simp)

/-- C6: the Normalizer resolves each canonical numeric field by trying
its fixed priority list of synonym keys in order: a key yields a value
exactly when it is present, its value truthy (non-empty) and numerically
parseable; the resolved value is the one of the first key that yields,
every earlier key yielding nothing (absent, empty or unparseable); the
field is null exactly when every key fails; and a dict row never causes
a record-level failure — normalization of a dict row always returns
`Except.ok`. -/
theorem normalizer_field_resolution (pf : String → Option ℚ)
    (fields : List (String × Value)) (keys : List String) :
    (∀ k q, candVal pf fields k = some q ↔
      ∃ v, fields.lookup k = some v ∧ v.truthy = true ∧ v.toFloat? pf = some q) ∧
    (∀ q, resolveNum pf fields keys = some q ↔
      ∃ pre k post, keys = pre ++ k :: post ∧
        candVal pf fields k = some q ∧
        ∀ k2 ∈ pre, candVal pf fields k2 = none) ∧
    (resolveNum pf fields keys = none ↔
      ∀ k ∈ keys, candVal pf fields k = none) ∧
    (∀ row : List (String × Value), ∃ o, normalizeRow pf (.dict row) = .ok o) := by
  refine ⟨fun k q => candVal_eq_some_iff pf fields k q,
    fun q => resolveNum_eq_some_iff pf fields keys q,
    resolveNum_eq_none_iff pf fields keys, fun row => ?_⟩
  rw [normalizeRow]
  rcases resolveRaw row psnKeys with _ | p <;>
    rcases resolveNum pf row timeKeys with _ | tv <;>
    rcases resolveNum pf row xKeys with _ | xv <;>
    rcases resolveNum pf row yKeys with _ | yv <;>
    exact ⟨_, rfl⟩

/-- A float parser for the C6 witness: parses only the string literal
`"7"`. -/
def pf7 : String → Option ℚ := fun s => if s = "7" then some 7 else none

/-- A sample dict row for the C6 witness: the key `x` is present but
unparseable, the later synonym `lon` parses. -/
def fieldsW : List (String × Value) := [("x", .vstr "bad"), ("lon", .vstr "7")]

/-- Witness for C6: on `fieldsW` the x field resolves through the synonym
list to `7` (the unparseable `x` is skipped), and normalization of the
dict row does not fail. -/
theorem normalizer_field_resolution_witness :
    (resolveNum pf7 fieldsW xKeys = some 7 ↔
      ∃ pre k post, xKeys = pre ++ k :: post ∧
        candVal pf7 fieldsW k = some 7 ∧
        ∀ k2 ∈ pre, candVal pf7 fieldsW k2 = none) ∧
    (∃ o, normalizeRow pf7 (.dict fieldsW) = .ok o) :=
  ⟨(normalizer_field_resolution pf7 fieldsW xKeys).2.1 7,
    (normalizer_field_resolution pf7 fieldsW xKeys).2.2.2 fieldsW⟩

theorem normalizeData_all_str (pf : String → Option ℚ) :
    ∀ lines : List String,
      normalizeData pf (lines.map .str) =
          .error "string indices must be integers" ∨
        normalizeData pf (lines.map .str) = .ok []
  | [] => .inr rfl
  | l :: ls => by
    simp only [List.map_cons, normalizeData, normalizeRow]
    by_cases hl : allKeys.any (strContains l)
    · rw [if_pos hl]
      exact .inl rfl
    · rw [if_neg hl]
      rcases normalizeData_all_str pf ls with h | h <;> rw [h]
      · exact .inl rfl
      · exact .inr rfl

/-- C10: on a file read through the txt/log path every raw row is a bare
string, so the Normalizer either raises the `TypeError` of indexing a
string with a string key (some synonym key occurs in some line as a
substring), which the entry point converts to the structured error
response, or drops every line (no synonym key occurs), so that every
non-error report on such a file has `total_positions_analyzed = 0`,
threat level Unknown and confidence `0.0`. -/
theorem textfile_report_empty (D : ℚ → ℚ → ℚ → ℚ → ℚ)
    (pf : String → Option ℚ) (jsonLoad : String → Except String (List RawRow))
    (csvRead : String → List (List (String × Value)))
    (linesOf : String → List String) (fs : String → Option String)
    (now fp s : String)
    (hext : extOf fp = "txt" ∨ extOf fp = "log") (hfs : fs fp = some s) :
    analyze D pf jsonLoad csvRead linesOf fs now fp =
        .err "string indices must be integers" now ∨
      analyze D pf jsonLoad csvRead linesOf fs now fp =
        .ok ⟨0, 0, 0, 0, 0, 0, 0, 0, 0, 0, [], "Unknown", 0⟩ := by
  have hread : readFile jsonLoad csvRead linesOf fs fp =
      .ok ((linesOf s).map .str) := by
    rcases hext with h | h <;> simp [readFile, h, hfs]
  rcases normalizeData_all_str pf (linesOf s) with hn | hn
  · left
    simp only [analyze, hread, hn]
  · right
    simp only [analyze, hread, hn]
    rfl

/-- Witness for C10 on the one-line text file `"hello"`, which matches no
synonym key: the report is the empty Unknown report. -/
theorem textfile_report_empty_witness :
    analyze d0 pf0 jl0 cr0 lo0 fs0 "T" "a.txt" =
        .err "string indices must be integers" "T" ∨
      analyze d0 pf0 jl0 cr0 lo0 fs0 "T" "a.txt" =
        .ok ⟨0, 0, 0, 0, 0, 0, 0, 0, 0, 0, [], "Unknown", 0⟩ :=
  textfile_report_empty d0 pf0 jl0 cr0 lo0 fs0 "T" "a.txt" ""
    (by decide) rfl

section SortClaims

variable {α : Type} [LinearOrderedField α]

theorem filter_orderedInsert (c : α) (a : Row α) :
    ∀ l : List (Row α),
      (List.orderedInsert (fun x y : Row α => x.t ≤ y.t) a l).filter
          (fun r => decide (r.t = c)) =
        if a.t = c then a :: l.filter (fun r => decide (r.t = c))
        else l.filter (fun r => decide (r.t = c))
  | [] => by
    by_cases h : a.t = c <;> simp [List.orderedInsert, List.filter, h]
  | b :: l => by
    simp only [List.orderedInsert]
    by_cases hab : a.t ≤ b.t
    · rw [if_pos hab]
      by_cases ha : a.t = c <;> simp [List.filter_cons, ha]
    · rw [if_neg hab]
      by_cases ha : a.t = c
      · have hb : ¬ b.t = c := fun hbc => hab (by rw [ha, hbc])
        simp [List.filter_cons, ha, hb, filter_orderedInsert c a l]
      · simp [List.filter_cons, ha, filter_orderedInsert c a l]

theorem sortRows_stable_filter (c : α) :
    ∀ rows : List (Row α),
      (sortRows rows).filter (fun r => decide (r.t = c)) =
        rows.filter (fun r => decide (r.t = c))
  | [] => rfl
  | b :: l => by
    rw [sortRows, List.insertionSort,
      filter_orderedInsert c b (List.insertionSort _ l)]
    have ih := sortRows_stable_filter c l
    rw [sortRows] at ih
    rw [ih]
    by_cases hb : b.t = c <;> simp [List.filter_cons, hb]

theorem sortRows_sorted (rows : List (Row α)) :
    List.Sorted (fun a b : Row α => a.t ≤ b.t) (sortRows rows) := by
  haveI : IsTotal (Row α) (fun a b => a.t ≤ b.t) := ⟨fun a b => le_total a.t b.t⟩
  haveI : IsTrans (Row α) (fun a b => a.t ≤ b.t) :=
    ⟨fun _ _ _ hab hbc => le_trans hab hbc⟩
  exact List.sorted_insertionSort _ rows

/-- C8 (amended): the per-vehicle sort is by timestamp ascending and
stable (records with equal timestamps keep their input order), a group
of fewer than two records is skipped entirely — no pairwise comparison,
no anomaly, and also no contribution to `total_points`, the denominator
of the rate-based metrics — while the vehicle still counts toward the
reported `total_vehicles`, the length of the grouping. -/
theorem grouper_sort_stable_singleton_groups (α : Type) [LinearOrderedField α]
    (D : α → α → α → α → α) (psn : Value) (rows : List (Row α)) (s : St α)
    (c : α) :
    List.Sorted (fun a b : Row α => a.t ≤ b.t) (sortRows rows) ∧
    (sortRows rows).filter (fun r => decide (r.t = c)) =
      rows.filter (fun r => decide (r.t = c)) ∧
    (rows.length < 2 → processVehicle D psn rows s = s) ∧
    (analyzeRows D rows).totalVehicles = (groupByPsn rows).length := by
  refine ⟨sortRows_sorted rows, sortRows_stable_filter c rows, fun h => ?_, rfl⟩
  have hlen : (sortRows rows).length < 2 := by
    rw [sortRows, List.length_insertionSort]
    exact h
  simp only [processVehicle]
  rw [if_pos hlen]

/-- Two ℚ sample records with equal timestamps, for the C8 witness. -/
def tiePair : List (Row ℚ) :=
  [⟨.vstr "A", 3, some 1, some 1, none⟩, ⟨.vstr "A", 3, some 2, some 2, none⟩]

/-- Witness for C8 (amended), instantiated at `ℚ`: sortedness and
stability on a concrete tied-timestamp list, and the skip of a concrete
singleton group. -/
theorem grouper_sort_stable_singleton_groups_witness :
    List.Sorted (fun a b : Row ℚ => a.t ≤ b.t) (sortRows tiePair) ∧
    (sortRows tiePair).filter (fun r => decide (r.t = (3 : ℚ))) =
      tiePair.filter (fun r => decide (r.t = (3 : ℚ))) ∧
    processVehicle d0 (.vstr "B") [⟨.vstr "B", 0, some 0, some 0, none⟩]
      (St.init ℚ) = St.init ℚ ∧
    (analyzeRows d0 tiePair).totalVehicles = (groupByPsn tiePair).length :=
  ⟨(grouper_sort_stable_singleton_groups ℚ d0 (.vstr "A") tiePair
      (St.init ℚ) 3).1,
    (grouper_sort_stable_singleton_groups ℚ d0 (.vstr "A") tiePair
      (St.init ℚ) 3).2.1,
    (grouper_sort_stable_singleton_groups ℚ d0 (.vstr "B")
      [⟨.vstr "B", 0, some 0, some 0, none⟩] (St.init ℚ) 0).2.2.1 (by decide),
    (grouper_sort_stable_singleton_groups ℚ d0 (.vstr "A") tiePair
      (St.init ℚ) 3).2.2.2⟩

/-- Counterexample to C8 as stated: a single record of a single vehicle
is a group of size < 2. The vehicle counts toward `total_vehicles` (here
1), but the rate-based metrics do not see it in any denominator: their
denominator `total_points` stays 0, the scoring takes the
`total_points == 0` branch and reports Unknown with confidence 0 — the
vehicle population is not the denominator of the rate-based metrics. -/
theorem singleton_vehicle_not_rate_denominator :
    analyzeRows (α := ℝ) havDist [⟨.vstr "B", 0, some 0, some 0, none⟩] =
      ⟨0, 1, 0, 0, 0, 0, 0, 0, 0, 0, [], "Unknown", 0⟩ := rfl

end SortClaims

theorem havDist_eval : havDist 0 0 0 (1 / 100) = 6371 * Real.pi / 18 := by
  have hpi := Real.pi_pos
  have hpile := Real.pi_le_four
  norm_num [havDist, radiansR, atan2R]
  set θ : ℝ := 1 / 100 * Real.pi / 180 / 2 with hθ
  have hθpos : 0 < θ := by rw [hθ]; positivity
  have hθlt : θ < Real.pi / 2 := by rw [hθ]; nlinarith
  have hsin_nonneg : 0 ≤ Real.sin θ :=
    Real.sin_nonneg_of_nonneg_of_le_pi hθpos.le (by rw [hθ]; nlinarith)
  have hsin_lt : Real.sin θ < 1 := by
    have h1 := Real.sin_lt hθpos
    have h2 : θ < 1 := by rw [hθ]; nlinarith
    linarith
  have hcos_pos : 0 < Real.cos θ := Real.cos_pos_of_mem_Ioo ⟨by nlinarith, hθlt⟩
  have h1a : 1 - Real.sin θ ^ 2 = Real.cos θ ^ 2 := by
    nlinarith [Real.sin_sq_add_cos_sq θ]
  rw [if_pos (by rw [abs_of_nonneg hsin_nonneg]; exact hsin_lt)]
  rw [Real.sqrt_sq hsin_nonneg, h1a, Real.sqrt_sq hcos_pos.le,
    ← Real.tan_eq_sin_div_cos, Real.arctan_tan (by nlinarith) hθlt]
  rw [hθ]; ring

/-- The first scenario record: vehicle V1 at latitude 0, longitude 0,
time 0 (x is longitude, y is latitude). -/
noncomputable def v1a : Row ℝ := ⟨.vstr "V1", 0, some 0, some 0, none⟩

/-- The second scenario record: vehicle V1 at latitude 0, longitude 0.01,
time 1. -/
noncomputable def v1b : Row ℝ := ⟨.vstr "V1", 1, some (1 / 100), some 0, none⟩

/-- C7: on the two-record input for vehicle V1 at `(lat 0, lon 0, t 0)`
and `(lat 0, lon 0.01, t 1)`, the haversine distance is
`6371000 * (0.01 pi / 180) = 6371 pi / 18`, which lies strictly between
1111.94 m and 1112 m (within 0.1 percent of the approximate 1113 m the
claim quotes); the computed speed equals that distance in m/s (time
delta 1 s); the analyzer classifies the pair as a teleportation
(`teleportations = 1` over `total_points = 2`), and since the teleport
rate `1/2` exceeds `0.01`, the threat level is Critical (with confidence
`min(1, (1/2)*10) = 1`). -/
theorem scenario_teleportation_critical :
    (1111 + 94 / 100 < havDist 0 0 0 (1 / 100) ∧
      havDist 0 0 0 (1 / 100) < 1112) ∧
    pairSpeed (havDist 0 0 0 (1 / 100)) ((1 : ℝ) - 0) =
      havDist 0 0 0 (1 / 100) ∧
    (analyzeRows havDist [v1a, v1b]).teleportations = 1 ∧
    (analyzeRows havDist [v1a, v1b]).totalPositionsAnalyzed = 2 ∧
    (analyzeRows havDist [v1a, v1b]).threatLevel = "Critical" ∧
    (analyzeRows havDist [v1a, v1b]).confidenceScore = 1 := by
  have hd := havDist_eval
  have hdlb : (1111 : ℝ) + 94 / 100 < havDist 0 0 0 (1 / 100) := by
    rw [hd]; nlinarith [Real.pi_gt_d6]
  have hdub : havDist 0 0 0 (1 / 100) < 1112 := by
    rw [hd]; nlinarith [Real.pi_lt_d6]
  have hsort : sortRows [v1a, v1b] = [v1a, v1b] := by
    simp only [sortRows, List.insertionSort, List.orderedInsert]
    rw [if_pos (show v1a.t ≤ v1b.t by norm_num [v1a, v1b])]
  have hclamp : clampDt ((1 : ℝ) - 0) = 1 - 0 := by
    rw [clampDt, if_neg]
    rw [minTimeDelta]; norm_num
  have hspeedEq : pairSpeed (havDist 0 0 0 (1 / 100)) ((1 : ℝ) - 0) =
      havDist 0 0 0 (1 / 100) := by
    rw [pairSpeed, hclamp, show ((1 : ℝ) - 0) = 1 by norm_num, div_one]
  have hs100 : pairSpeed (havDist 0 0 0 (1 / 100)) ((1 : ℝ) - 0) > 100 := by
    rw [hspeedEq]; linarith
  have hstep : processVehicle havDist (.vstr "V1") [v1a, v1b] (St.init ℝ) =
      ⟨2, 1, 0, 0, 0, 0,
        [.teleportation (.vstr "V1")
          (pairSpeed (havDist 0 0 0 (1 / 100)) ((1 : ℝ) - 0))
          (havDist 0 0 0 (1 / 100)) (clampDt ((1 : ℝ) - 0)) 1 (0, 1 / 100)]⟩ := by
    simp only [processVehicle, hsort]
    rw [if_neg (by norm_num)]
    simp only [processTraj, walk, stepPair, St.init]
    rw [show tsStep (Value.vstr "V1") v1a v1b ⟨2, 0, 0, 0, 0, 0, []⟩ =
        (⟨2, 0, 0, 0, 0, 0, []⟩ : St ℝ) by
      rw [tsStep, if_neg]
      norm_num [v1a, v1b]]
    simp only [pairCore, v1a, v1b]
    simp only [inconsistencyStep]
    rw [classifyStep, if_pos hs100]
    rw [repeatedStep, if_neg (by linarith)]
    norm_num
  have hscore : scoreThreat (α := ℝ) 1 0 0 0 2 = ("Critical", 1) := by
    rw [scoreThreat, if_neg (by norm_num)]
    norm_num
  refine ⟨⟨hdlb, hdub⟩, hspeedEq, ?_, ?_, ?_, ?_⟩ <;>
    · simp only [analyzeRows, List.foldl_cons, List.foldl_nil]
      rw [show groupByPsn [v1a, v1b] = [(.vstr "V1", [v1a, v1b])] from rfl]
      simp only [List.foldl_cons, List.foldl_nil, hstep, hscore]

end Autoforensics


